import Mathlib

/-
Verification of the gensound signal-transformation core (transforms.py and
gensound/filters.py) against its natural-language specification.

The audio buffer is embedded as a matrix of rational samples indexed by
channel and time, together with its channel count, sample count and sample
rate.  numpy in-place slice operations on `audio.audio` become pointwise
functional updates of the sample matrix.  Sample positions outside the
declared range `[0, numCh) x [0, len)` carry junk values; every theorem
quantifies only over in-range positions.
-/

set_option maxRecDepth 4000

/-- Embedding of the audio buffer consumed by every Transform (the `Audio`
class is an external collaborator of this core; see the spec, section 3):
a 2-D real-valued sample matrix (channels x samples) plus a sample rate. -/
structure Audio where
  numCh : ℕ
  len : ℕ
  sampleRate : ℚ
  samp : ℕ → ℕ → ℚ

/-- Modelled from the spec: `Audio.to_length` (resize-to-length) used by
`Combine.realise`.  The spec requires that existing sample content is
preserved, new regions are zero-filled, and that a parent buffer that is
already long enough is left untouched, so the operation never truncates. -/
def Audio.to_length (A : Audio) (L : ℕ) : Audio :=
  { A with len := max A.len L,
           samp := fun c t => if t < A.len then A.samp c t else 0 }

/-- Modelled from the spec: `Audio.to_channels` (channel-count expansion)
used by `Combine.realise`; existing content preserved, new channels silent. -/
def Audio.to_channels (A : Audio) (k : ℕ) : Audio :=
  { A with numCh := k,
           samp := fun c t => if c < A.numCh then A.samp c t else 0 }

/-- Modelled from the spec: `Audio.from_mono` (mono-to-multichannel
broadcast) used by `Pan.realise`: duplicates channel 0 into k channels. -/
def Audio.from_mono (A : Audio) (k : ℕ) : Audio :=
  { A with numCh := k, samp := fun _ t => A.samp 0 t }

/-- numpy in-place `audio.audio[i, lo:lo+|vals|] *= vals`: multiply the
samples of channel i in the window starting at lo pointwise by vals. -/
def Audio.mulSlice (A : Audio) (i lo : ℕ) (vals : List ℚ) : Audio :=
  { A with samp := fun c t =>
      if c = i ∧ lo ≤ t ∧ t < lo + vals.length
      then A.samp c t * vals.getD (t - lo) 0
      else A.samp c t }

/-- numpy in-place `audio.audio[i, lo:] *= v`: multiply every sample of
channel i from position lo on by the scalar v. -/
def Audio.mulFrom (A : Audio) (i lo : ℕ) (v : ℚ) : Audio :=
  { A with samp := fun c t =>
      if c = i ∧ lo ≤ t then A.samp c t * v else A.samp c t }

/- ######## FIRs (gensound/filters.py) ######## -/

/-- FIR.__init__: `total = sum(coefficients); self.h = [c/total for c in
coefficients]`.  A Python float division by total = 0 raises
ZeroDivisionError, which happens exactly when the coefficient list is
non-empty with zero sum (the comprehension over an empty tuple performs no
division at all); failure is rendered as `none`. -/
def FIR.init (coefficients : List ℚ) : Option (List ℚ) :=
  if coefficients ≠ [] ∧ coefficients.sum = 0 then none
  else some (coefficients.map (fun c => c / coefficients.sum))

/-- FIR._parallel_copies: h = self.coefficients(audio.sample_rate); allocate
|h| shifted copies of length n+|h|-1 (copy i holds h[i]*x on the window
[i, n+i)), sum them, and write back only the first n columns
(`np.sum(parallel, axis=0)[:,:n]`, trimming the convolution tail). -/
def FIR.parallel_copies (coefficients : ℚ → List ℚ) (A : Audio) : Audio :=
  let h := coefficients A.sampleRate
  let n := A.len
  { A with samp := fun c t =>
      if t < n then
        ((List.range h.length).map (fun i =>
          if i ≤ t ∧ t < n + i then h.getD i 0 * A.samp c (t - i) else 0)).sum
      else A.samp c t }

/-- FIR.realise just delegates to FIR._parallel_copies. -/
def FIR.realise (coefficients : ℚ → List ℚ) (A : Audio) : Audio :=
  FIR.parallel_copies coefficients A

/-- MovingAverage.__init__: `self.h = [1/width]*width`, oblivious to the
sample rate. -/
def MovingAverage.h (width : ℕ) : List ℚ :=
  List.replicate width (1 / (width : ℚ))

/-- MovingAverage.realise (inherited from FIR). -/
def MovingAverage.realise (width : ℕ) (A : Audio) : Audio :=
  FIR.realise (fun _ => MovingAverage.h width) A

/- ######## IIRs (gensound/filters.py) ######## -/

/-- numpy row read at a possibly negative index: a negative index -j
addresses position N - j from the start of a row of length N. -/
def npRead (N : ℕ) (f : ℕ → ℚ) (i : ℤ) : ℚ :=
  if 0 ≤ i then f i.toNat else f (N - (-i).toNat)

/-- The state of the array y in IIR.realise after the loop
`for i in range(len(a), x.shape[1])` has processed all indices below k:
y starts as zeros (`np.zeros_like(x)`), and iteration i = k (which runs
only when len(a) <= k) sets
y[k] = sum over n < len(b) of b[n]*x[k-n]
     - sum over m in [1, len(a)) of a[m]*y[k-m],
x being read with numpy index semantics (N is the padded row length). -/
def iirYs (b a : List ℚ) (N : ℕ) (x : ℕ → ℚ) : ℕ → ℕ → ℚ
  | 0 => fun _ => 0
  | k + 1 => fun j =>
      if j = k ∧ a.length ≤ k then
        ((List.range b.length).map (fun n =>
            b.getD n 0 * npRead N x ((k : ℤ) - (n : ℤ)))).sum
        - ((List.range (a.length - 1)).map (fun m =>
            a.getD (m + 1) 0 * iirYs b a N x k (k - (m + 1)))).sum
      else iirYs b a N x k j

/-- IIR.realise: (b, a) = self.coefficients(audio.sample_rate); the input is
left-padded with len(a)-1 zeros (`np.pad(audio.audio, ((0,0),(len(a)-1,0)))`),
y is computed by the loop embedded in iirYs over the padded row of length
N = len + (len(a)-1), and the result written back is `y[:,:audio.length]`,
i.e. the first len entries of y. -/
def IIR.realise (coefficients : ℚ → List ℚ × List ℚ) (A : Audio) : Audio :=
  let ba := coefficients A.sampleRate
  let b := ba.1
  let a := ba.2
  let pad := a.length - 1
  let N := A.len + pad
  { A with samp := fun c t =>
      if t < A.len then
        iirYs b a N (fun i => if i < pad then 0 else A.samp c (i - pad)) N t
      else A.samp c t }

/-- The direct-form recursion stated by the spec for the IIR contract
(section 4.2): with zero initial history (x[t] = 0 and y[t] = 0 for t < 0),
y[t] = sum over n of b[n]*x[t-n] - sum over m >= 1 of a[m]*y[t-m].
This follows the spec words only, for comparison with IIR.realise; the
function returns the list of the first t values y[0..t-1]. -/
def specDirectForm (b a : List ℚ) (x : ℕ → ℚ) : ℕ → List ℚ
  | 0 => []
  | t + 1 =>
      let ys := specDirectForm b a x t
      ys ++ [((List.range b.length).map (fun n =>
                if n ≤ t then b.getD n 0 * x (t - n) else 0)).sum
             - ((List.range (a.length - 1)).map (fun m =>
                if m + 1 ≤ t then a.getD (m + 1) 0 * ys.getD (t - (m + 1)) 0
                else 0)).sum]

/-- The spec direct-form output at time t. -/
def specDirectFormAt (b a : List ℚ) (x : ℕ → ℚ) (t : ℕ) : ℚ :=
  (specDirectForm b a x (t + 1)).getD t 0

/-- The mono three-sample buffer [5, 7, 9] used to exercise the IIR engine. -/
def audio579 : Audio :=
  { numCh := 1, len := 3, sampleRate := 44100,
    samp := fun _ t => if t = 0 then 5 else if t = 1 then 7 else if t = 2 then 9 else 0 }

/- ######## Claim theorems: C1, C2 ######## -/

/-- C1: the spec contract demands that IIR.realise replace the samples by the
direct-form recursion output y[t] = Σ b[n]x[t-n] − Σ_{m≥1} a[m]y[t-m] with
zero initial history, at every index 0 ≤ t < length.  At the normalized
coefficients b = (1), a = (1, 0) (a[0] = 1, zero feedback — a pure identity
filter under that contract) on the mono buffer [5, 7, 9], the code instead
produces [0, 0, 7]: the loop starts at index len(a) of the padded row and the
write-back takes y[:, :length] rather than y[:, len(a)-1:], so the output is
delayed by len(a)-1 samples and its first computed sample is dropped. -/
theorem C1_iir_realise_diverges_from_direct_form :
    ((IIR.realise (fun _ => ([1], [1, 0])) audio579).samp 0 0 = 0 ∧
     (IIR.realise (fun _ => ([1], [1, 0])) audio579).samp 0 1 = 0 ∧
     (IIR.realise (fun _ => ([1], [1, 0])) audio579).samp 0 2 = 7) ∧
    (specDirectFormAt [1] [1, 0] (audio579.samp 0) 0 = 5 ∧
     specDirectFormAt [1] [1, 0] (audio579.samp 0) 1 = 7 ∧
     specDirectFormAt [1] [1, 0] (audio579.samp 0) 2 = 9) ∧
    (IIR.realise (fun _ => ([1], [1, 0])) audio579).samp 0 0 ≠
      specDirectFormAt [1] [1, 0] (audio579.samp 0) 0 := by
  norm_num [IIR.realise, iirYs, npRead, audio579, specDirectFormAt,
    specDirectForm, List.range_succ, Int.toNat, List.getD]

/-- C2: with a = (1) (no feedback) the IIR engine is claimed to match the FIR
computation with the same b taps.  On the mono buffer [5, 7, 9] with
b = (1), FIR gives back [5, 7, 9] but IIR.realise gives [0, 7, 9]: the loop
`for i in range(len(a), ...)` skips index 0, leaving the first output sample
zero. -/
theorem C2_iir_no_feedback_differs_from_fir :
    ((IIR.realise (fun _ => ([1], [1])) audio579).samp 0 0 = 0 ∧
     (IIR.realise (fun _ => ([1], [1])) audio579).samp 0 1 = 7 ∧
     (IIR.realise (fun _ => ([1], [1])) audio579).samp 0 2 = 9) ∧
    ((FIR.parallel_copies (fun _ => [1]) audio579).samp 0 0 = 5 ∧
     (FIR.parallel_copies (fun _ => [1]) audio579).samp 0 1 = 7 ∧
     (FIR.parallel_copies (fun _ => [1]) audio579).samp 0 2 = 9) ∧
    (IIR.realise (fun _ => ([1], [1])) audio579).samp 0 0 ≠
      (FIR.parallel_copies (fun _ => [1]) audio579).samp 0 0 := by
  norm_num [IIR.realise, iirYs, npRead, audio579, FIR.parallel_copies,
    List.range_succ, Int.toNat, List.getD]

/- ######## Claim theorems: C4, C5 ######## -/

/-- Sum of a list after dividing every element by the same scalar. -/
lemma sum_map_div (l : List ℚ) (s : ℚ) :
    (l.map (fun c => c / s)).sum = l.sum / s := by
  induction l with
  | nil => simp
  | cons a l ih => simp [ih, add_div]

/-- C4 counterexample: the claim says every coefficient list with zero sum
fails construction, but `FIR()` with the empty coefficient tuple has total
sum 0 and still constructs (the comprehension performs no division, so no
ZeroDivisionError is raised and h = [] results). -/
theorem C4_counterexample_empty_list :
    ([] : List ℚ).sum = 0 ∧ FIR.init [] ≠ none := by
  constructor
  · rfl
  · simp [FIR.init]

/-- C4 amended: for every coefficient list with nonzero sum the constructor
normalizes the taps to sum exactly 1; for every NON-EMPTY coefficient list
with zero sum, construction fails (ZeroDivisionError).  The empty list also
has zero sum but constructs the empty tap list without error. -/
theorem C4_fir_normalization (coefficients : List ℚ) :
    (coefficients.sum ≠ 0 →
      ∃ h, FIR.init coefficients = some h ∧ h.sum = 1) ∧
    (coefficients ≠ [] → coefficients.sum = 0 → FIR.init coefficients = none) := by
  constructor
  · intro hs
    have hcond : ¬(coefficients ≠ [] ∧ coefficients.sum = 0) := fun h => hs h.2
    refine ⟨coefficients.map (fun c => c / coefficients.sum), ?_, ?_⟩
    · simp only [FIR.init, if_neg hcond]
    · rw [sum_map_div, div_self hs]
  · intro hne hz
    simp [FIR.init, hne, hz]

/-- C4 witness: at (2, 3) the sum is 5 ≠ 0 and the normalized taps sum to 1;
at (1, -1) the list is non-empty with zero sum and construction fails. -/
theorem C4_fir_normalization_witness :
    (∃ h, FIR.init [2, 3] = some h ∧ h.sum = 1) ∧ FIR.init [1, -1] = none :=
  ⟨(C4_fir_normalization [2, 3]).1 (by norm_num),
   (C4_fir_normalization [1, -1]).2 (by simp) (by norm_num)⟩

/-- The mono five-sample unit impulse [1, 0, 0, 0, 0], at sample rate sr. -/
def impulse5 (sr : ℚ) : Audio :=
  { numCh := 1, len := 5, sampleRate := sr,
    samp := fun _ t => if t = 0 then 1 else 0 }

/-- C5: for every sample rate, MovingAverage of width 3 realized on the mono
buffer [1, 0, 0, 0, 0] yields exactly [1/3, 1/3, 1/3, 0, 0], with channel
count and length unchanged (the convolution tail beyond index 4 is
discarded). -/
theorem C5_moving_average_width3_impulse (sr : ℚ) :
    (MovingAverage.realise 3 (impulse5 sr)).numCh = 1 ∧
    (MovingAverage.realise 3 (impulse5 sr)).len = 5 ∧
    (MovingAverage.realise 3 (impulse5 sr)).samp 0 0 = 1 / 3 ∧
    (MovingAverage.realise 3 (impulse5 sr)).samp 0 1 = 1 / 3 ∧
    (MovingAverage.realise 3 (impulse5 sr)).samp 0 2 = 1 / 3 ∧
    (MovingAverage.realise 3 (impulse5 sr)).samp 0 3 = 0 ∧
    (MovingAverage.realise 3 (impulse5 sr)).samp 0 4 = 0 := by
  norm_num [MovingAverage.realise, MovingAverage.h, FIR.realise,
    FIR.parallel_copies, impulse5, List.range_succ, List.getD]

/- ######## transforms.py: Reverse, Repan, Gain, Amplitude ######## -/

/-- Reverse.realise: `audio.audio[:,:] = audio.audio[:,::-1]` reverses every
channel along the time axis, leaving shape untouched. -/
def Reverse.realise (A : Audio) : Audio :=
  { A with samp := fun c t =>
      if t < A.len then A.samp c (A.len - 1 - t) else A.samp c t }

/-- Repan.realise: new_audio starts as zeros of the same shape
(`np.zeros(audio.audio.shape)`); entry i of the channel mapping copies
source channel j of the old matrix into new channel i when the entry is j,
and skips (leaving silence) when the entry is None; the new matrix is then
committed wholesale (`audio.audio[:,:] = new_audio[:,:]`), so every source
read happens against the pre-realization matrix.  Channels at or beyond the
mapping length stay zero.  (A mapping longer than the channel count would
raise IndexError in numpy and is not modelled.) -/
def Repan.realise (channels : List (Option ℕ)) (A : Audio) : Audio :=
  { A with samp := fun c t =>
      match channels.getD c none with
      | some j => A.samp j t
      | none => 0 }

/-- The identity channel mapping (0, 1, ..., k-1). -/
def identityChannels (k : ℕ) : List (Option ℕ) :=
  (List.range k).map some

/-- Curve parameter, consumed through the spec flatten/endpoint contract
(the curve engine is an external collaborator): flatten(sample_rate) is the
curve sample sequence over its own duration, endpoint() the constant
extrapolation value.  Modelled from the spec: num_samples(sample_rate)
equals the length of the flattened sequence. -/
structure Curve where
  flatten : ℚ → List ℚ
  endpoint : ℚ

/-- Curve.num_samples, equal by the spec contract to the flattened length. -/
def Curve.num_samples (cv : Curve) (sr : ℚ) : ℕ :=
  (cv.flatten sr).length

/-- Amplitude.realise, branch for a Curve parameter amp on channel i:
vals = amp.flatten(sr); audio.audio[i, 0:amp.num_samples(sr)] *= vals;
audio.audio[i, amp.num_samples(sr):] *= amp.endpoint(). -/
def Amplitude.realiseCurve (A : Audio) (i : ℕ) (amp : Curve) : Audio :=
  (A.mulSlice i 0 (amp.flatten A.sampleRate)).mulFrom i
    (amp.num_samples A.sampleRate) amp.endpoint

/-- Gain.realise, branch for a Curve parameter dB on channel i: same shape
as Amplitude but through DB_to_Linear; DB_to_Linear (gensound.utils, outside
src) is kept abstract as the parameter dbl, applied elementwise to the
flattened values (`DB_to_Linear(dB.flatten(sr))`) and to the endpoint. -/
def Gain.realiseCurve (dbl : ℚ → ℚ) (A : Audio) (i : ℕ) (dB : Curve) : Audio :=
  (A.mulSlice i 0 ((dB.flatten A.sampleRate).map dbl)).mulFrom i
    (dB.num_samples A.sampleRate) (dbl dB.endpoint)

/-- getD of a mapped list below its length. -/
lemma getD_map_of_lt (f : ℚ → ℚ) (l : List ℚ) (t : ℕ) (h : t < l.length) :
    (l.map f).getD t 0 = f (l.getD t 0) := by
  rw [List.getD_eq_getElem _ _ (by simpa using h), List.getD_eq_getElem _ _ h,
    List.getElem_map]

/- ######## Claim theorems: C7, C8, C10 ######## -/

/-- C7: realizing Gain or Amplitude with a Curve parameter on channel i of a
buffer of length n multiplies samples in [0, k) by the curve flattened
values (for Gain, their DB_to_Linear image), where k is the curve sample
count, and multiplies every sample in [k, n) by the (linearized) endpoint
value — constant extrapolation, not zero. -/
theorem C7_gain_amplitude_curve_policy (dbl : ℚ → ℚ) (A : Audio) (i : ℕ)
    (cv : Curve) (t : ℕ)
    (hk : cv.num_samples A.sampleRate ≤ A.len) (ht : t < A.len) :
    (t < cv.num_samples A.sampleRate →
      (Amplitude.realiseCurve A i cv).samp i t =
        A.samp i t * (cv.flatten A.sampleRate).getD t 0 ∧
      (Gain.realiseCurve dbl A i cv).samp i t =
        A.samp i t * dbl ((cv.flatten A.sampleRate).getD t 0)) ∧
    (cv.num_samples A.sampleRate ≤ t →
      (Amplitude.realiseCurve A i cv).samp i t = A.samp i t * cv.endpoint ∧
      (Gain.realiseCurve dbl A i cv).samp i t = A.samp i t * dbl cv.endpoint) := by
  constructor
  · intro hlt
    have hmap := getD_map_of_lt dbl (cv.flatten A.sampleRate) t hlt
    constructor
    · simp [Amplitude.realiseCurve, Audio.mulSlice, Audio.mulFrom,
        Curve.num_samples] at hlt ⊢
      simp [hlt, Nat.not_le.mpr hlt]
    · simp [Gain.realiseCurve, Audio.mulSlice, Audio.mulFrom,
        Curve.num_samples, hmap] at hlt ⊢
      simp [hlt, Nat.not_le.mpr hlt, hmap]
  · intro hge
    have hnot : ¬ t < cv.num_samples A.sampleRate := Nat.not_lt.mpr hge
    constructor
    · simp [Amplitude.realiseCurve, Audio.mulSlice, Audio.mulFrom,
        Curve.num_samples] at hnot hge ⊢
      simp [hge, hnot]
    · simp [Gain.realiseCurve, Audio.mulSlice, Audio.mulFrom,
        Curve.num_samples] at hnot hge ⊢
      simp [hge, hnot]

/-- Concrete curve with flattened samples (4) and endpoint 9. -/
def curveW : Curve := { flatten := fun _ => [4], endpoint := 9 }

/-- Concrete mono two-sample buffer for the C7 witness. -/
def audioAmp : Audio :=
  { numCh := 1, len := 2, sampleRate := 44100,
    samp := fun _ t => if t = 0 then 10 else 20 }

/-- C7 witness: the policy theorem applied at the one-sample curve (4) with
endpoint 9 on the buffer [10, 20], at t = 0 (inside the curve) and t = 1
(beyond it). -/
theorem C7_gain_amplitude_curve_policy_witness :
    ((Amplitude.realiseCurve audioAmp 0 curveW).samp 0 0 =
        audioAmp.samp 0 0 * (curveW.flatten audioAmp.sampleRate).getD 0 0 ∧
      (Gain.realiseCurve (fun x => x * 2) audioAmp 0 curveW).samp 0 0 =
        audioAmp.samp 0 0 * (fun x => x * 2) ((curveW.flatten audioAmp.sampleRate).getD 0 0)) ∧
    ((Amplitude.realiseCurve audioAmp 0 curveW).samp 0 1 =
        audioAmp.samp 0 1 * curveW.endpoint ∧
      (Gain.realiseCurve (fun x => x * 2) audioAmp 0 curveW).samp 0 1 =
        audioAmp.samp 0 1 * (fun x => x * 2) curveW.endpoint) :=
  ⟨(C7_gain_amplitude_curve_policy (fun x => x * 2) audioAmp 0 curveW 0
      (by decide) (by decide)).1 (by decide),
   (C7_gain_amplitude_curve_policy (fun x => x * 2) audioAmp 0 curveW 1
      (by decide) (by decide)).2 (by decide)⟩

/-- C8: Repan with the identity mapping leaves every channel unchanged; a
mapping entry None zeroes that output channel regardless of prior content;
and an entry j fills the output channel from source channel j as it was
before realization (the new matrix is built separately, so no source is
read after being overwritten). -/
theorem C8_repan_identity_and_null (A : Audio) (chs : List (Option ℕ)) (c t : ℕ) :
    (c < A.numCh →
      (Repan.realise (identityChannels A.numCh) A).samp c t = A.samp c t) ∧
    (c < chs.length → chs.getD c none = none →
      (Repan.realise chs A).samp c t = 0) ∧
    (∀ j, chs.getD c none = some j →
      (Repan.realise chs A).samp c t = A.samp j t) := by
  refine ⟨?_, ?_, ?_⟩
  · intro hc
    have hid : (identityChannels A.numCh)[c]? = some (some c) := by
      simp [identityChannels, List.getElem?_map, List.getElem?_range, hc]
    simp [Repan.realise, hid]
  · intro _ hnone
    rw [List.getD_eq_getElem?_getD] at hnone
    simp [Repan.realise, hnone]
  · intro j hj
    rw [List.getD_eq_getElem?_getD] at hj
    simp [Repan.realise, hj]

/-- Concrete two-channel one-sample buffer for the C8 witness. -/
def audioRep : Audio :=
  { numCh := 2, len := 1, sampleRate := 44100,
    samp := fun c _ => if c = 0 then 3 else 4 }

/-- C8 witness: identity mapping on channel 0 of a two-channel buffer, a
None entry zeroing channel 0, and an entry 1 copying source channel 1. -/
theorem C8_repan_identity_and_null_witness :
    ((Repan.realise (identityChannels audioRep.numCh) audioRep).samp 0 0 =
      audioRep.samp 0 0) ∧
    ((Repan.realise [none] audioRep).samp 0 0 = 0) ∧
    ((Repan.realise [some 1, some 0] audioRep).samp 0 0 = audioRep.samp 1 0) :=
  ⟨(C8_repan_identity_and_null audioRep [none] 0 0).1 (by decide),
   (C8_repan_identity_and_null audioRep [none] 0 0).2.1 (by decide) (by decide),
   (C8_repan_identity_and_null audioRep [some 1, some 0] 0 0).2.2 1 (by decide)⟩

/-- C10: one Reverse.realise keeps channel and sample counts and reverses
each channel in time; applying it twice restores every sample exactly. -/
theorem C10_reverse_involution (A : Audio) :
    (Reverse.realise A).numCh = A.numCh ∧
    (Reverse.realise A).len = A.len ∧
    (∀ c t, t < A.len →
      (Reverse.realise A).samp c t = A.samp c (A.len - 1 - t)) ∧
    (∀ c t, t < A.len →
      (Reverse.realise (Reverse.realise A)).samp c t = A.samp c t) := by
  refine ⟨rfl, rfl, ?_, ?_⟩
  · intro c t ht
    simp [Reverse.realise, ht]
  · intro c t ht
    have h1 : A.len - 1 - t < A.len := by omega
    have h2 : A.len - 1 - (A.len - 1 - t) = t := by omega
    simp [Reverse.realise, ht, h1, h2]

/-- Concrete mono two-sample buffer for the C10 witness. -/
def audioRev : Audio :=
  { numCh := 1, len := 2, sampleRate := 44100,
    samp := fun _ t => if t = 0 then 3 else 4 }

/-- C10 witness: on the buffer [3, 4], one reversal maps position 0 to the
last sample and a double reversal restores position 1. -/
theorem C10_reverse_involution_witness :
    ((Reverse.realise audioRev).samp 0 0 = audioRev.samp 0 (audioRev.len - 1 - 0)) ∧
    ((Reverse.realise (Reverse.realise audioRev)).samp 0 1 = audioRev.samp 0 1) :=
  ⟨(C10_reverse_involution audioRev).2.2.1 0 0 (by decide),
   (C10_reverse_involution audioRev).2.2.2 0 1 (by decide)⟩

/- ######## transforms.py: Combine ######## -/

/-- Combine.realise, acting on the parent buffer A with the already-realized
sub-buffer sub (new_audio = self.signal.realise(audio.sample_rate) is the
recursive realization of the nested signal, taken here as an input).  The
Python slices appear with concrete endpoints (a None start reads as 0 via
`or 0` and via `sample_slice.start if ... is not None else 0`).  Steps:
1. max_channel = max(0, cs.start, cs.stop - 1); if it reaches the current
   channel count the buffer is expanded via to_channels(max_channel + 1);
2. `audio.audio[channel_slice, sample_slice] = 0` zeroes the slice region,
   numpy clipping both slices to the current shape;
3. `audio.to_length(start_sample + new_audio.length)`;
4. `audio.audio[channel_slice, start : start + L] += new_audio.audio` adds
   the sub-buffer (shape agreement between the clipped channel slice and
   the sub-buffer channel count is assumed, as numpy would otherwise raise). -/
def Combine.realise (cstart cstop sstart sstop : ℕ) (sub A : Audio) : Audio :=
  let maxch := max (max 0 cstart) (cstop - 1)
  let A1 := if A.numCh ≤ maxch then A.to_channels (maxch + 1) else A
  let A2 := { A1 with samp := fun c t =>
      if cstart ≤ c ∧ c < min cstop A1.numCh ∧ sstart ≤ t ∧ t < min sstop A1.len
      then 0 else A1.samp c t }
  let A3 := A2.to_length (sstart + sub.len)
  { A3 with samp := fun c t =>
      if cstart ≤ c ∧ c < min cstop A3.numCh ∧ sstart ≤ t ∧ t < sstart + sub.len
      then A3.samp c t + sub.samp (c - cstart) (t - sstart)
      else A3.samp c t }

/- ######## Claim theorems: C3 ######## -/

/-- The parent buffer [10, 20, 30] for the C3 scenario. -/
def parC3 : Audio :=
  { numCh := 1, len := 3, sampleRate := 44100,
    samp := fun _ t => if t = 0 then 10 else if t = 1 then 20 else if t = 2 then 30 else 0 }

/-- The realized sub-buffer [1, 2] for the C3 scenario. -/
def subC3 : Audio :=
  { numCh := 1, len := 2, sampleRate := 44100,
    samp := fun _ t => if t = 0 then 1 else 2 }

/-- C3 counterexample: embedding the sub-buffer [1, 2] at offset 0 (time
slice [0, 1)) into the parent [10, 20, 30] gives first sample 1, not
10 + 1 = 11: the sample inside the time slice is NOT its pre-mix value plus
the sub-signal sample, because Combine first zeroes the slice region
(`audio.audio[self.channel_slice, sample_slice] = 0`). -/
theorem C3_combine_not_purely_additive :
    ¬ ((Combine.realise 0 1 0 1 subC3 parC3).samp 0 0 =
        parC3.samp 0 0 + subC3.samp 0 0) := by
  norm_num [Combine.realise, Audio.to_length, Audio.to_channels, parC3, subC3]

/-- C3 amended: Combine mixes the realized sub-buffer of length L at the
slice start t into the parent of length N as follows: the result length is
max(N, t+L) (so exactly t+L whenever N < t+L); within the mixing window a
sample is the sub-signal sample plus the prior parent value, EXCEPT that
prior values inside the time slice [t, min(stop, N)) have been zeroed first
(so there the mix is an overwrite by the sub-signal alone); samples of
affected channels that lie before t, or at or beyond both the slice stop
and t+L, are exactly as before mixing, as are all samples of channels
outside the channel range. -/
theorem C3_combine_mixing (par sub : Audio) (cstart cstop sstart sstop : ℕ)
    (hcs : cstart < cstop) (hch : cstop ≤ par.numCh)
    (hsub : sub.numCh = cstop - cstart) :
    (Combine.realise cstart cstop sstart sstop sub par).len =
        max par.len (sstart + sub.len) ∧
    (∀ c t, cstart ≤ c → c < cstop → sstart ≤ t → t < sstart + sub.len →
      (Combine.realise cstart cstop sstart sstop sub par).samp c t =
        (if t < min sstop par.len then 0
         else if t < par.len then par.samp c t else 0) +
        sub.samp (c - cstart) (t - sstart)) ∧
    (∀ c t, c < par.numCh → t < par.len →
      (t < sstart ∨ (sstop ≤ t ∧ sstart + sub.len ≤ t)) →
      (Combine.realise cstart cstop sstart sstop sub par).samp c t =
        par.samp c t) ∧
    (∀ c t, c < par.numCh → t < par.len → (c < cstart ∨ cstop ≤ c) →
      (Combine.realise cstart cstop sstart sstop sub par).samp c t =
        par.samp c t) := by
  have hM : ¬ (par.numCh ≤ max (max 0 cstart) (cstop - 1)) := by omega
  refine ⟨?_, ?_, ?_, ?_⟩
  · simp only [Combine.realise, Audio.to_length, Audio.to_channels, if_neg hM]
  · intro c t hc1 hc2 ht1 ht2
    have hcmin : c < min cstop par.numCh := by omega
    simp only [Combine.realise, Audio.to_length, Audio.to_channels, if_neg hM]
    rw [if_pos ⟨hc1, hcmin, ht1, ht2⟩]
    by_cases hz : t < min sstop par.len
    · have htlen : t < par.len := by omega
      rw [if_pos htlen, if_pos ⟨hc1, hcmin, ht1, hz⟩, if_pos hz]
    · rw [if_neg hz]
      by_cases htlen : t < par.len
      · rw [if_pos htlen, if_neg (by tauto), if_pos htlen]
      · rw [if_neg htlen, if_neg htlen]
  · intro c t hc ht hout
    have hnoz : ¬ (cstart ≤ c ∧ c < min cstop par.numCh ∧ sstart ≤ t ∧
        t < min sstop par.len) := by omega
    have hnoadd : ¬ (cstart ≤ c ∧ c < min cstop par.numCh ∧ sstart ≤ t ∧
        t < sstart + sub.len) := by omega
    simp only [Combine.realise, Audio.to_length, Audio.to_channels, if_neg hM]
    rw [if_neg hnoadd, if_pos ht, if_neg hnoz]
  · intro c t hc ht hout
    have hnoz : ¬ (cstart ≤ c ∧ c < min cstop par.numCh ∧ sstart ≤ t ∧
        t < min sstop par.len) := by omega
    have hnoadd : ¬ (cstart ≤ c ∧ c < min cstop par.numCh ∧ sstart ≤ t ∧
        t < sstart + sub.len) := by omega
    simp only [Combine.realise, Audio.to_length, Audio.to_channels, if_neg hM]
    rw [if_neg hnoadd, if_pos ht, if_neg hnoz]

/-- C3 witness: the amended characterization applied to the parent
[10, 20, 30] and sub-buffer [1, 2] at channel slice [0, 1) and time slice
[0, 1): length stays 3, sample 1 (outside the slice, inside the mixing
window) becomes 20 + 2, and sample 2 is untouched. -/
theorem C3_combine_mixing_witness :
    (Combine.realise 0 1 0 1 subC3 parC3).len = max parC3.len (0 + subC3.len) ∧
    (Combine.realise 0 1 0 1 subC3 parC3).samp 0 1 =
      (if (1 : ℕ) < min 1 parC3.len then 0
       else if (1 : ℕ) < parC3.len then parC3.samp 0 1 else 0) +
      subC3.samp (0 - 0) (1 - 0) ∧
    (Combine.realise 0 1 0 1 subC3 parC3).samp 0 2 = parC3.samp 0 2 :=
  ⟨(C3_combine_mixing parC3 subC3 0 1 0 1 (by decide) (by decide) (by decide)).1,
   (C3_combine_mixing parC3 subC3 0 1 0 1 (by decide) (by decide) (by decide)).2.1
      0 1 (by decide) (by decide) (by decide) (by decide),
   (C3_combine_mixing parC3 subC3 0 1 0 1 (by decide) (by decide) (by decide)).2.2.1
      0 2 (by decide) (by decide) (by decide)⟩

/- ######## transforms.py: Pan ######## -/

/-- Runtime value of a per-channel dB entry produced by a panning scheme:
a plain number (what the scheme yields for a scalar pan value) or a numpy
array (what it yields, elementwise, for a flattened Curve pan value). -/
inductive PyVal where
  | num : ℚ → PyVal
  | arr : List ℚ → PyVal

/-- The pan parameter of Pan.__init__: a plain number or a Curve
(polymorphic, dispatched by isnumber / isinstance(..., Curve)). -/
inductive PanParam where
  | scalar : ℚ → PanParam
  | curve : Curve → PanParam

/-- Pan.defaultStereo = (Pan.LdB x, Pan.RdB x) with LdB x = pan_shape(-x)
and RdB x = pan_shape(x); pan_shape (log-based, built from Pan.width and
Pan.panLaw) is transcendental and is kept abstract as the parameter shape.
Applied to a number it yields two numbers; applied to a numpy array numpy
broadcasts pan_shape elementwise, yielding two arrays. -/
def Pan.defaultStereo (shape : ℚ → ℚ) : PyVal → List PyVal
  | .num x => [.num (shape (-x)), .num (shape x)]
  | .arr l => [.arr (l.map (fun x => shape (-x))), .arr (l.map shape)]

/-- The per-channel loop of Pan.realise over the enumerated dB entries,
i being the channel index:
`audio.audio[i, :len(dB)] *= DB_to_Linear(dB)` then
`audio.audio[i, len(dB):] *= DB_to_Linear(self.scheme(self.pan.endpoint())[i])`.
`len(dB)` raises TypeError when dB is a plain number, and
`self.pan.endpoint()` raises AttributeError when the pan parameter is a
plain number; DB_to_Linear (gensound.utils, outside src) stays abstract as
dbl. -/
def Pan.loop (dbl : ℚ → ℚ) (scheme : PyVal → List PyVal) (pan : PanParam) :
    ℕ → List PyVal → Audio → Except String Audio
  | _, [], A => .ok A
  | i, dB :: rest, A =>
    match dB with
    | .num _ => .error "TypeError: object of type float has no len"
    | .arr l =>
      let A1 := A.mulSlice i 0 (l.map dbl)
      match pan with
      | .scalar _ => .error "AttributeError: float has no attribute endpoint"
      | .curve cv =>
        match (scheme (.num cv.endpoint)).get? i with
        | some (.num v) =>
            Pan.loop dbl scheme pan (i + 1) rest (A1.mulFrom i l.length (dbl v))
        | _ => .error "endpoint scheme entry is not a number"

/-- Pan.realise: `assert audio.num_channels() == 1`; dBs = scheme(pan) when
pan is a number, scheme(pan.flatten(sr)) when it is a Curve;
`audio.from_mono(len(dBs))`; then the per-channel loop. -/
def Pan.realise (dbl : ℚ → ℚ) (scheme : PyVal → List PyVal) (pan : PanParam)
    (A : Audio) : Except String Audio :=
  if A.numCh ≠ 1 then .error "AssertionError: panning is from mono to multi"
  else
    let dBs := match pan with
      | .scalar q => scheme (.num q)
      | .curve cv => scheme (.arr (cv.flatten A.sampleRate))
    Pan.loop dbl scheme pan 0 dBs (A.from_mono dBs.length)

/- ######## Claim theorems: C6 ######## -/

/-- The mono one-sample buffer used as the C6 failing input. -/
def monoPan : Audio :=
  { numCh := 1, len := 1, sampleRate := 44100, samp := fun _ _ => 1 }

/-- A two-channel buffer for the non-mono half of C6. -/
def stereoPan : Audio :=
  { numCh := 2, len := 1, sampleRate := 44100, samp := fun _ _ => 1 }

/-- C6: the claim says Pan.realise succeeds on every mono buffer with every
plain scalar pan value.  In fact, for any pan_shape and any DB_to_Linear,
realizing Pan(0) under the default stereo scheme on the mono buffer [1]
raises TypeError: the scheme yields per-channel scalar dB values and the
loop immediately evaluates len(dB) on a float.  The second half of the
claim does hold: on a buffer with more than one channel the assertion
fires. -/
theorem C6_pan_scalar_crashes (shape dbl : ℚ → ℚ) :
    Pan.realise dbl (Pan.defaultStereo shape) (.scalar 0) monoPan =
      .error "TypeError: object of type float has no len" ∧
    Pan.realise dbl (Pan.defaultStereo shape) (.scalar 0) stereoPan =
      .error "AssertionError: panning is from mono to multi" := by
  constructor <;> rfl

/- ######## Coefficient designers: SimpleLPF / SimpleHPF ######## -/

/-- SimpleLPF.coefficients: Fc = 2*pi*cutoff/sample_rate,
beta = (1 - tan(Fc/2)) / (1 + tan(Fc/2)), a = (1, -beta),
b = ((1-beta)/2, (1-beta)/2). -/
noncomputable def SimpleLPF.coefficients (cutoff sample_rate : ℝ) :
    (ℝ × ℝ) × (ℝ × ℝ) :=
  let Fc := 2 * Real.pi * cutoff / sample_rate
  let beta := (1 - Real.tan (Fc / 2)) / (1 + Real.tan (Fc / 2))
  (((1 - beta) / 2, (1 - beta) / 2), (1, -beta))

/-- SimpleHPF.coefficients: same Fc and beta, a = (1, -beta),
b = ((1+beta)/2, -(1+beta)/2). -/
noncomputable def SimpleHPF.coefficients (cutoff sample_rate : ℝ) :
    (ℝ × ℝ) × (ℝ × ℝ) :=
  let Fc := 2 * Real.pi * cutoff / sample_rate
  let beta := (1 - Real.tan (Fc / 2)) / (1 + Real.tan (Fc / 2))
  (((1 + beta) / 2, -((1 + beta) / 2)), (1, -beta))

/- ######## Claim theorems: C9 ######## -/

/-- C9: for every cutoff strictly between 0 and Nyquist (half the sample
rate), the beta of SimpleLPF and SimpleHPF satisfies |beta| < 1; beta is
the single pole of the returned (b, a) = (b, (1, -beta)) pair, recovered as
the negation of the second feedback coefficient, so the pole lies strictly
inside the unit circle. -/
theorem C9_simple_filters_pole_stable (cutoff sample_rate : ℝ)
    (hsr : 0 < sample_rate) (hc0 : 0 < cutoff) (hcN : cutoff < sample_rate / 2) :
    |(-(SimpleLPF.coefficients cutoff sample_rate).2.2)| < 1 ∧
    |(-(SimpleHPF.coefficients cutoff sample_rate).2.2)| < 1 := by
  have hpi := Real.pi_pos
  set th := 2 * Real.pi * cutoff / sample_rate / 2 with hth
  have hth2 : th = Real.pi * (cutoff / sample_rate) := by
    rw [hth]; ring
  have hthpos : 0 < th := by
    rw [hth2]
    have : 0 < cutoff / sample_rate := div_pos hc0 hsr
    positivity
  have hthlt : th < Real.pi / 2 := by
    rw [hth2]
    have hlt : cutoff / sample_rate < 1 / 2 := by
      rw [div_lt_div_iff₀ hsr (by norm_num)]
      linarith
    calc Real.pi * (cutoff / sample_rate) < Real.pi * (1 / 2) := by
          exact mul_lt_mul_of_pos_left hlt hpi
      _ = Real.pi / 2 := by ring
  have hT : 0 < Real.tan th := Real.tan_pos_of_pos_of_lt_pi_div_two hthpos hthlt
  have h1T : 0 < 1 + Real.tan th := by linarith
  have habs : |(1 - Real.tan th) / (1 + Real.tan th)| < 1 := by
    rw [abs_lt]
    constructor
    · rw [lt_div_iff₀ h1T]
      linarith
    · rw [div_lt_one h1T]
      linarith
  constructor
  · simpa [SimpleLPF.coefficients, hth] using habs
  · simpa [SimpleHPF.coefficients, hth] using habs

/-- C9 witness: cutoff 1 at sample rate 4 lies strictly between 0 and
Nyquist, so both poles are inside the unit circle. -/
theorem C9_simple_filters_pole_stable_witness :
    |(-(SimpleLPF.coefficients 1 4).2.2)| < 1 ∧
    |(-(SimpleHPF.coefficients 1 4).2.2)| < 1 :=
  C9_simple_filters_pole_stable 1 4 (by norm_num) (by norm_num) (by norm_num)
